import Mathlib

/-!
Verification of the gulp build-orchestration script (`gulpfile.ts`).

The script wires together a bundler, two code generators (GraphQL schema →
types, JSON schemas → types), a dev server, an unused-export linter and an
asset-copy step. Below, each piece of logic the claims touch is shallowly
embedded: strings as `String` / `List Char`, the global literal `replace` as a
scan over character lists, the gulp `series` / `parallel` combinators as a
small task AST with an interleaving-trace semantics and an outcome semantics,
and the fallible external collaborators (file reads, schema parsing, prettier
config resolution, the file watcher) as explicit `Except` / `Option`
parameters.
-/

/-! ## JSON-schema `$ref` rewrite (`schema` task, gulpfile.ts lines 146-152)

`schema.replace(/https:\/\/sourcegraph\.com\/v1\/settings\.schema\.json#\/definitions\//g, '#/definitions/')`
is a global replacement of a literal pattern (every regex metacharacter is
escaped): JavaScript scans left to right, replaces each leftmost occurrence,
and resumes scanning after the inserted replacement text's source position.
`replaceAllFuel` embeds that scan; the fuel is the length of the remaining
input, which bounds the recursion. -/

def replaceAllFuel (pat rep : List Char) : Nat → List Char → List Char
  | _, [] => []
  | 0, s => s
  | fuel + 1, c :: cs =>
    if pat.isPrefixOf (c :: cs) && !pat.isEmpty then
      rep ++ replaceAllFuel pat rep fuel (cs.drop (pat.length - 1))
    else
      c :: replaceAllFuel pat rep fuel cs

def replaceAll (pat rep s : List Char) : List Char :=
  replaceAllFuel pat rep s.length s

/-- Whether `pat` occurs as a contiguous substring of `s` (Boolean). -/
def containsPat (pat : List Char) : List Char → Bool
  | [] => pat.isEmpty
  | c :: cs => pat.isPrefixOf (c :: cs) || containsPat pat cs

theorem replaceAllFuel_congr (pat rep : List Char) :
    ∀ f₁ f₂ s, s.length ≤ f₁ → s.length ≤ f₂ →
      replaceAllFuel pat rep f₁ s = replaceAllFuel pat rep f₂ s := by
  intro f₁
  induction f₁ with
  | zero =>
    intro f₂ s hs₁ _
    have : s = [] := List.length_eq_zero.mp (Nat.le_zero.mp hs₁)
    subst this
    cases f₂ <;> rfl
  | succ f ih =>
    intro f₂ s hs₁ hs₂
    cases s with
    | nil => cases f₂ <;> rfl
    | cons c cs =>
      cases f₂ with
      | zero => exact absurd hs₂ (by simp [Nat.not_succ_le_zero])
      | succ g =>
        have hcs₁ : cs.length ≤ f := Nat.le_of_succ_le_succ (by simpa using hs₁)
        have hcs₂ : cs.length ≤ g := Nat.le_of_succ_le_succ (by simpa using hs₂)
        simp only [replaceAllFuel]
        by_cases h : (pat.isPrefixOf (c :: cs) && !pat.isEmpty) = true
        · rw [if_pos h, if_pos h]
          have hd : (cs.drop (pat.length - 1)).length ≤ cs.length :=
            by simp
          rw [ih g (cs.drop (pat.length - 1)) (le_trans hd hcs₁) (le_trans hd hcs₂)]
        · rw [if_neg h, if_neg h, ih g cs hcs₁ hcs₂]

theorem replaceAll_nil (pat rep : List Char) : replaceAll pat rep [] = [] := rfl

theorem replaceAll_cons_neg (pat rep : List Char) (c : Char) (cs : List Char)
    (h : (pat.isPrefixOf (c :: cs) && !pat.isEmpty) = false) :
    replaceAll pat rep (c :: cs) = c :: replaceAll pat rep cs := by
  show replaceAllFuel pat rep (cs.length + 1) (c :: cs) = _
  simp only [replaceAllFuel, h]
  rfl

theorem replaceAll_cons_pos (pat rep : List Char) (c : Char) (cs : List Char)
    (h : (pat.isPrefixOf (c :: cs) && !pat.isEmpty) = true) :
    replaceAll pat rep (c :: cs) = rep ++ replaceAll pat rep (cs.drop (pat.length - 1)) := by
  show replaceAllFuel pat rep (cs.length + 1) (c :: cs) = _
  simp only [replaceAllFuel, h, if_pos]
  have hd : (cs.drop (pat.length - 1)).length ≤ cs.length :=
    by simp
  rw [replaceAllFuel_congr pat rep cs.length (cs.drop (pat.length - 1)).length _ hd le_rfl]
  rfl

/-- A string containing no occurrence of the pattern is left unchanged. -/
theorem replaceAll_of_not_contains (pat rep : List Char) :
    ∀ s, containsPat pat s = false → replaceAll pat rep s = s := by
  intro s
  induction s with
  | nil => intro _; rfl
  | cons c cs ih =>
    intro h
    simp only [containsPat, Bool.or_eq_false_iff] at h
    rw [replaceAll_cons_neg pat rep c cs (by simp [h.1]), ih h.2]

/-- The absolute `$ref` pattern rewritten by the `schema` task. -/
def refPat : List Char :=
  "https://sourcegraph.com/v1/settings.schema.json#/definitions/".toList

/-- The root-relative replacement text. -/
def refRepl : List Char := "#/definitions/".toList

/-- The reference rewrite applied by the `schema` task (gulpfile.ts line 149). -/
def rewriteRefs (s : List Char) : List Char := replaceAll refPat refRepl s

/-- The input refuting idempotence: the 47-character host part of the pattern
followed by a full occurrence of the pattern. -/
def c1BadInput : List Char :=
  "https://sourcegraph.com/v1/settings.schema.json".toList ++ refPat

/-- C1 (counterexample): the rewrite is not idempotent. On
`"https://sourcegraph.com/v1/settings.schema.json" ++ refPat` one pass
replaces the occurrence of the pattern starting at index 47, and the
replacement text completes the leading 47 characters into a fresh occurrence
of the pattern, which a second pass replaces again. -/
theorem rewriteRefs_not_idempotent :
    rewriteRefs (rewriteRefs c1BadInput) ≠ rewriteRefs c1BadInput := by decide

/-- C1 (amended): the rewrite replaces each leftmost occurrence of the
absolute-reference pattern with `#/definitions/` as it scans left to right and
copies all other characters unchanged — in particular a string with no
occurrence of the pattern is returned unchanged — and applying it twice gives
the same result as applying it once for every input whose one-pass result
contains no occurrence of the pattern (unrestricted idempotence fails, see the
counterexample). -/
theorem rewriteRefs_spec (s : List Char) :
    (containsPat refPat s = false → rewriteRefs s = s) ∧
    (∀ c cs, s = c :: cs → refPat.isPrefixOf s = false →
      rewriteRefs s = c :: rewriteRefs cs) ∧
    (refPat.isPrefixOf s = true →
      rewriteRefs s = refRepl ++ rewriteRefs (s.drop refPat.length)) ∧
    (containsPat refPat (rewriteRefs s) = false →
      rewriteRefs (rewriteRefs s) = rewriteRefs s) := by
  refine ⟨replaceAll_of_not_contains refPat refRepl s, ?_, ?_, ?_⟩
  · rintro c cs rfl h
    exact replaceAll_cons_neg refPat refRepl c cs (by simp [h])
  · intro h
    cases s with
    | nil => exact absurd h (by decide)
    | cons c cs =>
      have hcond : (refPat.isPrefixOf (c :: cs) && !refPat.isEmpty) = true := by
        rw [h]; decide
      show replaceAll refPat refRepl (c :: cs) = _
      rw [replaceAll_cons_pos refPat refRepl c cs hcond]
      have hlen : refPat.length = 61 := by decide
      simp only [rewriteRefs, hlen]
      norm_num [List.drop_succ_cons]
  · exact replaceAll_of_not_contains refPat refRepl (rewriteRefs s)

/-- Concrete input for the second witness conjunct: a full pattern occurrence
followed by an `x`. -/
def c1PosInput : List Char := refPat ++ "x".toList

/-- Witness for `rewriteRefs_spec`: at `"no refs here"` (no occurrence) the
rewrite is the identity and is idempotent; at `refPat ++ "x"` the occurrence
at the front is replaced. -/
theorem rewriteRefs_spec_witness :
    rewriteRefs "no refs here".toList = "no refs here".toList ∧
    rewriteRefs c1PosInput = refRepl ++ rewriteRefs (c1PosInput.drop refPat.length) ∧
    rewriteRefs (rewriteRefs "no refs here".toList) = rewriteRefs "no refs here".toList :=
  ⟨(rewriteRefs_spec _).1 (by decide),
   (rewriteRefs_spec c1PosInput).2.2.1 (by decide),
   (rewriteRefs_spec _).2.2.2 (by decide)⟩

/-! ## The gulp task graph (`build` and `watch` composites, gulpfile.ts
lines 216-236)

`gulp.series` runs its members one after another, each to completion;
`gulp.parallel` starts all members at once and its executions are the
interleavings of its members' executions. A leaf task is either an ordinary
asynchronous function (it starts and later finishes) or a watcher-style
function that starts and, under normal operation, never finishes. The trace
semantics below enumerates every interleaving of start/finish events.
`gulp.parallel` or `gulp.series` applied to more than two members associates
like its binary nesting, and applied to a single member it behaves as that
member. -/

inductive TName where
  | schemaT
  | graphQLTypesT
  | webpackT
  | phabricatorT
  | watchSchemaT
  | watchGraphQLTypesT
  | webpackServeT
  | watchPhabricatorInnerT
deriving DecidableEq

inductive Ev where
  | start (n : TName)
  | finish (n : TName)
deriving DecidableEq

inductive GTask where
  | act (n : TName)
  | forever (n : TName)
  | seq (a b : GTask)
  | par (a b : GTask)

/-- All interleavings of two event lists; the fuel (total length) makes the
recursion structural. -/
def shufflesFuel : Nat → List Ev → List Ev → List (List Ev)
  | _, [], ys => [ys]
  | _, x :: xs, [] => [x :: xs]
  | 0, xs, ys => [xs ++ ys]
  | fuel + 1, x :: xs, y :: ys =>
    (shufflesFuel fuel xs (y :: ys)).map (x :: ·) ++
      (shufflesFuel fuel (x :: xs) ys).map (y :: ·)

def shuffles (xs ys : List Ev) : List (List Ev) :=
  shufflesFuel (xs.length + ys.length) xs ys

/-- Every possible execution trace (sequence of start/finish events) of a
task graph. -/
def tracesOf : GTask → List (List Ev)
  | .act n => [[.start n, .finish n]]
  | .forever n => [[.start n]]
  | .seq a b => (tracesOf a).flatMap fun ta => (tracesOf b).map fun tb => ta ++ tb
  | .par a b => (tracesOf a).flatMap fun ta => (tracesOf b).flatMap fun tb => shuffles ta tb

/-- The composite `build = gulp.parallel(gulp.series(gulp.parallel(schema, graphQLTypes),
gulp.parallel(webpack, phabricator)))` (gulpfile.ts lines 225-227);
`gulp.parallel` of the single series behaves as that series. -/
def buildTask : GTask :=
  .seq (.par (.act .schemaT) (.act .graphQLTypesT))
    (.par (.act .webpackT) (.act .phabricatorT))

/-- The composite `watchPhabricator = gulp.series(phabricator, async function
watchPhabricator ...)` (gulpfile.ts lines 216-220); the second member watches
and never finishes. -/
def watchPhabricatorTask : GTask :=
  .seq (.act .phabricatorT) (.forever .watchPhabricatorInnerT)

/-- The composite `watch = gulp.series(gulp.parallel(schema, graphQLTypes),
gulp.parallel(watchSchema, watchGraphQLTypes, webpackServe,
watchPhabricator))` (gulpfile.ts lines 232-236). -/
def watchComposite : GTask :=
  .seq (.par (.act .schemaT) (.act .graphQLTypesT))
    (.par (.par (.forever .watchSchemaT) (.forever .watchGraphQLTypesT))
      (.par (.forever .webpackServeT) watchPhabricatorTask))

/-- C2: in every execution trace of the `build` composite, any start of the
webpack (bundle) task or of the phabricator (asset-sync) task is preceded by
the completion of both codegen tasks (`schema` and `graphQLTypes`). -/
theorem build_codegen_before_bundle :
    ∀ tr ∈ tracesOf buildTask, ∀ j < tr.length,
      (tr.get? j = some (.start .webpackT) ∨ tr.get? j = some (.start .phabricatorT)) →
        (∃ i < j, tr.get? i = some (.finish .schemaT)) ∧
        (∃ i < j, tr.get? i = some (.finish .graphQLTypesT)) := by decide

/-- A concrete execution trace of `build`, used by the witness. -/
def buildTrace0 : List Ev :=
  [.start .schemaT, .finish .schemaT, .start .graphQLTypesT, .finish .graphQLTypesT,
   .start .webpackT, .finish .webpackT, .start .phabricatorT, .finish .phabricatorT]

/-- Witness for `build_codegen_before_bundle` at a concrete trace and the
position of `start webpack` in it. -/
theorem build_codegen_before_bundle_witness :
    (∃ i < 4, buildTrace0.get? i = some (.finish .schemaT)) ∧
    (∃ i < 4, buildTrace0.get? i = some (.finish .graphQLTypesT)) :=
  build_codegen_before_bundle buildTrace0 (by decide) 4 (by decide) (by decide)

/-- C9: in every execution trace of the `watch` composite the phabricator
asset-copy task runs to completion (its finish event occurs even though no
watched file ever changes, since the trace semantics contains no
change-triggered re-runs), and inside `watchPhabricator` the asset copy
finishes before the watcher starts. -/
theorem watchPhabricator_initial_sync :
    (∀ tr ∈ tracesOf watchPhabricatorTask,
      tr = [.start .phabricatorT, .finish .phabricatorT, .start .watchPhabricatorInnerT]) ∧
    (∀ tr ∈ tracesOf watchComposite,
      Ev.finish .phabricatorT ∈ tr ∧
      ∀ j < tr.length, tr.get? j = some (.start .watchPhabricatorInnerT) →
        ∃ i < j, tr.get? i = some (.finish .phabricatorT)) := by
  set_option maxRecDepth 4096 in decide

/-- A concrete execution trace of the `watch` composite, used by the witness. -/
def watchTrace0 : List Ev :=
  [.start .schemaT, .finish .schemaT, .start .graphQLTypesT, .finish .graphQLTypesT,
   .start .watchSchemaT, .start .watchGraphQLTypesT, .start .webpackServeT,
   .start .phabricatorT, .finish .phabricatorT, .start .watchPhabricatorInnerT]

/-- Witness for `watchPhabricator_initial_sync` at a concrete trace of the
`watch` composite and the position of the inner watcher's start in it. -/
theorem watchPhabricator_initial_sync_witness :
    Ev.finish .phabricatorT ∈ watchTrace0 ∧
    ∃ i < 9, watchTrace0.get? i = some (.finish .phabricatorT) :=
  ⟨(watchPhabricator_initial_sync.2 watchTrace0 (by decide)).1,
   (watchPhabricator_initial_sync.2 watchTrace0 (by decide)).2 9 (by decide) (by decide)⟩

/-! ## Outcome semantics and the watch tasks (gulpfile.ts lines 101-105,
165-169, 216-220)

`watchGraphQLTypes` and `watchSchema` both await
`new Promise<never>((resolve, reject) => gulp.watch(...).on('error', reject))`:
the promise has no path to resolution, and rejects exactly when the watcher
emits an error event. A task outcome is `done` (resolved), `pending` (still
running / never resolves) or `failed` (rejected). A gulp series is pending or
failed as soon as a member is; a gulp parallel fails as soon as any member
fails (already-started siblings keep running but the composite rejects), is
pending if a member never settles, and is done only when every member is. -/

inductive TaskOutcome where
  | done
  | pending
  | failed (e : String)
deriving DecidableEq

/-- Outcome of the body of `watchGraphQLTypes` / `watchSchema`, as a function
of whether (and with what) the underlying `gulp.watch` watcher emitted an
error event. -/
def watchTaskOutcome : Option String → TaskOutcome
  | none => .pending
  | some e => .failed e

def seqO : TaskOutcome → TaskOutcome → TaskOutcome
  | .done, b => b
  | .pending, _ => .pending
  | .failed e, _ => .failed e

def parO : TaskOutcome → TaskOutcome → TaskOutcome
  | .failed e, _ => .failed e
  | _, .failed e => .failed e
  | .pending, _ => .pending
  | _, .pending => .pending
  | .done, .done => .done

/-- Outcome of a task graph given the outcome of each leaf. -/
def outcomeOf (env : TName → TaskOutcome) : GTask → TaskOutcome
  | .act n => env n
  | .forever n => env n
  | .seq a b => seqO (outcomeOf env a) (outcomeOf env b)
  | .par a b => parO (outcomeOf env a) (outcomeOf env b)

theorem parO_failed_left (a b : TaskOutcome) (e : String) (h : a = .failed e) :
    parO a b = .failed e := by subst h; cases b <;> rfl

theorem parO_failed_of_right (a b : TaskOutcome) (e : String)
    (ha : a ≠ .done → a = .pending) (h : b = .failed e) : parO a b = .failed e := by
  subst h
  cases a with
  | done => rfl
  | pending => rfl
  | failed e' => exact absurd (ha (by simp)) (by simp)

/-- C7: a watch task's body never resolves — its outcome is `pending` under
normal operation and `failed e` exactly when the watcher reports error `e` —
and once the codegen phase has completed, a failure of `watchSchema` or of
`watchGraphQLTypes` (the latter when its sibling `watchSchema` is still
running normally) propagates to the enclosing `watch` composite and fails
it. -/
theorem watch_never_resolves_and_propagates :
    (∀ we : Option String, watchTaskOutcome we ≠ .done) ∧
    watchTaskOutcome none = .pending ∧
    (∀ we e, watchTaskOutcome we = .failed e ↔ we = some e) ∧
    (∀ (env : TName → TaskOutcome) e,
      env .schemaT = .done → env .graphQLTypesT = .done →
      env .watchSchemaT = .failed e →
        outcomeOf env watchComposite = .failed e) ∧
    (∀ (env : TName → TaskOutcome) e,
      env .schemaT = .done → env .graphQLTypesT = .done →
      env .watchSchemaT = .pending → env .watchGraphQLTypesT = .failed e →
        outcomeOf env watchComposite = .failed e) := by
  refine ⟨?_, rfl, ?_, ?_, ?_⟩
  · intro we
    cases we <;> simp [watchTaskOutcome]
  · intro we e
    cases we <;> simp [watchTaskOutcome]
  · intro env e hs hg hw
    simp only [outcomeOf, watchComposite, watchPhabricatorTask, hs, hg, hw]
    rw [parO_failed_left _ _ e rfl, parO_failed_left _ _ e rfl]
    rfl
  · intro env e hs hg hws hwg
    simp only [outcomeOf, watchComposite, watchPhabricatorTask, hs, hg, hws, hwg]
    rw [parO_failed_of_right _ _ e (fun _ => rfl) rfl, parO_failed_left _ _ e rfl]
    rfl

/-- Concrete leaf-outcome environment for the witness: codegen done, the
`watchSchema` watcher failed, every other leaf still running. -/
def envW : TName → TaskOutcome
  | .schemaT => .done
  | .graphQLTypesT => .done
  | .watchSchemaT => .failed "ENOENT"
  | _ => .pending

/-- Witness for `watch_never_resolves_and_propagates` at a concrete watcher
error and leaf environment. -/
theorem watch_never_resolves_and_propagates_witness :
    watchTaskOutcome (some "ENOENT") ≠ .done ∧
    (watchTaskOutcome (some "ENOENT") = .failed "ENOENT" ↔
      (some "ENOENT" : Option String) = some "ENOENT") ∧
    outcomeOf envW watchComposite = .failed "ENOENT" :=
  ⟨watch_never_resolves_and_propagates.1 (some "ENOENT"),
   watch_never_resolves_and_propagates.2.2.1 (some "ENOENT") "ENOENT",
   watch_never_resolves_and_propagates.2.2.2.1 envW "ENOENT" rfl rfl rfl⟩

/-! ## Bundle task (`webpack`, gulpfile.ts lines 23-44)

`compiler.run` either calls back with an error (the promise rejects with it;
nothing is logged) or with a `Stats` object. The stats are always rendered
with `WEBPACK_STATS_OPTIONS` and logged, and the task then throws
`'Failed to compile'` iff `stats.hasErrors()` — iff the compilation recorded
at least one error-level entry. `stats.toString` with
`{ errors: true, warnings: true, warningsFilter }` renders the errors and
the warnings for which `warningsFilter` returns `false` (matching warnings
are excluded).

`warningsFilter` is
`/node_modules\/monaco-editor\/.*\/editorSimpleWorker.js.*\n.*dependency is an expression/.test(warning)`;
the regex is a concatenation of literals, the any-character class `.`
(anything but a newline; the two unescaped dots in `editorSimpleWorker.js`)
and `.*` pieces, embedded below as an atom list with existential matching
semantics. -/

inductive RAtom where
  | lit (l : List Char)
  | anyChar
  | anyStar

/-- Whether the atom sequence matches some prefix of `s`. -/
def matchAtoms : List RAtom → List Char → Bool
  | [], _ => true
  | .lit l :: rest, s => l.isPrefixOf s && matchAtoms rest (s.drop l.length)
  | .anyChar :: rest, s =>
    match s with
    | [] => false
    | c :: cs => c != '\n' && matchAtoms rest cs
  | .anyStar :: rest, s =>
    (List.range (s.length + 1)).any fun k =>
      (s.take k).all (fun c => c != '\n') && matchAtoms rest (s.drop k)

/-- Semantics of `RegExp.prototype.test`: the atom sequence matches starting at some
position of `s`. -/
def regexTest (atoms : List RAtom) (s : List Char) : Bool :=
  (List.range (s.length + 1)).any fun i => matchAtoms atoms (s.drop i)

/-- The worker-script warning pattern of `WEBPACK_STATS_OPTIONS.warningsFilter`
(gulpfile.ts line 30). -/
def monacoWarningAtoms : List RAtom :=
  [.lit "node_modules/monaco-editor/".toList, .anyStar,
   .lit "/editorSimpleWorker".toList, .anyChar, .lit "js".toList, .anyStar,
   .lit "\n".toList, .anyStar, .lit "dependency is an expression".toList]

/-- The filter `WEBPACK_STATS_OPTIONS.warningsFilter` applied to a warning's text:
`true` means the warning is excluded from the rendered output. -/
def warningsFilter (w : String) : Bool := regexTest monacoWarningAtoms w.toList

/-- The bundler's diagnostics object: error-level and warning-level entries. -/
structure WStats where
  errors : List String
  warnings : List String

/-- Embeds `stats.hasErrors()`. -/
def hasErrors (s : WStats) : Bool := !s.errors.isEmpty

/-- The warnings that survive `warningsFilter` and appear in
`stats.toString(WEBPACK_STATS_OPTIONS)`. -/
def renderedWarnings (s : WStats) : List String :=
  s.warnings.filter fun w => !warningsFilter w

/-- The diagnostic entries of `stats.toString(WEBPACK_STATS_OPTIONS)`: the
errors and the non-excluded warnings. -/
def renderStats (s : WStats) : List String := s.errors ++ renderedWarnings s

/-- Result of `compiler.run`: the callback's error, or its stats. -/
inductive RunOutcome where
  | fail (e : String)
  | finish (s : WStats)

/-- A task execution: the lines it logged and its resolved/rejected result. -/
structure TaskRun where
  logs : List (List String)
  result : Except String Unit

/-- The `webpack` task (gulpfile.ts lines 35-44). -/
def webpackTask : RunOutcome → TaskRun
  | .fail e => ⟨[], .error e⟩
  | .finish s =>
    ⟨[renderStats s], if hasErrors s then .error "Failed to compile" else .ok ()⟩

/-- C3: whenever the bundler run completes with a stats object, the task logs
the rendered (filtered) diagnostics — whether or not it is about to fail —
and it rejects with `Failed to compile` exactly when the diagnostics contain
at least one error-level entry, even though the bundler invocation itself did
not throw. -/
theorem webpack_logs_and_fails_on_errors (s : WStats) :
    (webpackTask (.finish s)).logs = [renderStats s] ∧
    ((webpackTask (.finish s)).result = .error "Failed to compile" ↔ s.errors ≠ []) := by
  constructor
  · rfl
  · show (if hasErrors s then Except.error "Failed to compile" else Except.ok ()) = _ ↔ _
    by_cases h : s.errors = []
    · simp [hasErrors, h]
    · simp [hasErrors, List.isEmpty_iff, h]

/-- C6: a warning appears in the rendered diagnostic log iff its text does
not match the worker-script pattern, and warnings alone — matching or not —
never make the task fail: with no error-level entries the task succeeds
whatever its warnings are. -/
theorem webpack_warning_filtering (s : WStats) (w : String) (hw : w ∈ s.warnings) :
    (w ∈ renderedWarnings s ↔ warningsFilter w = false) ∧
    (s.errors = [] → (webpackTask (.finish s)).result = .ok ()) := by
  constructor
  · simp [renderedWarnings, List.mem_filter, hw]
  · intro h
    show (if hasErrors s then Except.error "Failed to compile" else Except.ok ()) = _
    simp [hasErrors, h]

/-- The benign monaco-editor worker warning, as emitted by the bundler. -/
def monacoWarning : String :=
  "./node_modules/monaco-editor/esm/vs/editor/common/services/editorSimpleWorker.js\nCritical dependency: the request of a dependency is an expression"

/-- Stats with no errors, the benign monaco warning and an ordinary warning. -/
def statsW : WStats := ⟨[], [monacoWarning, "some other warning"]⟩

/-- Witness for `webpack_warning_filtering`: the monaco worker warning is
excluded from the rendered log, the ordinary warning is included, and the
task still succeeds. -/
theorem webpack_warning_filtering_witness :
    monacoWarning ∉ renderedWarnings statsW ∧
    "some other warning" ∈ renderedWarnings statsW ∧
    (webpackTask (.finish statsW)).result = .ok () := by
  refine ⟨?_, ?_, ?_⟩
  · intro hmem
    have h := (webpack_warning_filtering statsW monacoWarning (by simp [statsW])).1.mp hmem
    have : warningsFilter monacoWarning = true := by
      set_option maxRecDepth 16384 in decide
    rw [this] at h
    cases h
  · exact ((webpack_warning_filtering statsW "some other warning"
      (by simp [statsW])).1.mpr (by set_option maxRecDepth 16384 in decide))
  · exact (webpack_warning_filtering statsW monacoWarning (by simp [statsW])).2 rfl

/-- Witness-style instantiation for `webpack_logs_and_fails_on_errors` at
stats with one error entry: the diagnostics are logged and the task fails. -/
theorem webpack_logs_and_fails_on_errors_witness :
    (webpackTask (.finish ⟨["error TS2304"], []⟩)).logs = [renderStats ⟨["error TS2304"], []⟩] ∧
    (webpackTask (.finish ⟨["error TS2304"], []⟩)).result = .error "Failed to compile" :=
  ⟨(webpack_logs_and_fails_on_errors ⟨["error TS2304"], []⟩).1,
   (webpack_logs_and_fails_on_errors ⟨["error TS2304"], []⟩).2.mpr (by decide)⟩

/-! ## JSON-schema task file-system effects (`schema`, gulpfile.ts
lines 142-163)

The task creates `src/schema` and `dist/schema`, then for each of the four
schema names reads `schema/<f>.schema.json`, rewrites the absolute `$ref`s,
compiles a type declaration from the rewritten text, and writes the
declaration to `src/schema/<f>.schema.d.ts` and the rewritten schema to
`src/schema/<f>.schema.json`. Reading and compiling are external
collaborators, passed in as functions; `dirName` stands for `__dirname`. -/

def dirName : String := "/sourcegraph"

/-- The fixed schema-file list (gulpfile.ts line 145). -/
def SCHEMA_FILES : List String := ["json-schema", "settings", "site", "extension"]

inductive FsAction where
  | mkdir (path : String)
  | write (path : String) (content : String)
deriving DecidableEq

/-- The reference rewrite on `String`s. -/
def rewriteRefsStr (s : String) : String := ⟨rewriteRefs s.data⟩

/-- The file-system actions of the `schema` task, given the contents read
from each source schema file and the external JSON-schema-to-TypeScript
compiler. -/
def schemaTaskActions (read : String → String) (compile : String → String) :
    List FsAction :=
  [.mkdir (dirName ++ "/src/schema"), .mkdir (dirName ++ "/dist/schema")] ++
    SCHEMA_FILES.flatMap fun file =>
      let s := rewriteRefsStr (read (dirName ++ "/schema/" ++ file ++ ".schema.json"))
      [.write (dirName ++ "/src/schema/" ++ file ++ ".schema.d.ts") (compile s),
       .write (dirName ++ "/src/schema/" ++ file ++ ".schema.json") s]

/-- C4 (counterexample): the schema task does not write into the distribution
tree. With trivial read/compile collaborators, `settings` is in the schema
list and yet no action writes `dist/schema/settings.schema.json` (nor any
other path under `dist/`); only the `mkdir` touches `dist`. -/
theorem schemaTask_no_dist_writes :
    "settings" ∈ SCHEMA_FILES ∧
    ¬ ∃ c, FsAction.write (dirName ++ "/dist/schema/settings.schema.json") c ∈
      schemaTaskActions (fun _ => "") (fun _ => "") := by
  constructor
  · decide
  · rintro ⟨c, hc⟩
    simp [schemaTaskActions, SCHEMA_FILES, dirName] at hc

/-- C4 (amended): for every schema file in the fixed list the task writes the
generated type declaration (derived from the rewritten schema text) and the
reference-rewritten schema file, but both land in the source tree
(`src/schema`) only; the distribution tree (`dist/schema`) is created and
left empty — every write action of the task targets `src/schema`. -/
theorem schemaTask_writes (read compile : String → String) (file : String)
    (hf : file ∈ SCHEMA_FILES) :
    (FsAction.write (dirName ++ "/src/schema/" ++ file ++ ".schema.d.ts")
        (compile (rewriteRefsStr (read (dirName ++ "/schema/" ++ file ++ ".schema.json")))) ∈
      schemaTaskActions read compile) ∧
    (FsAction.write (dirName ++ "/src/schema/" ++ file ++ ".schema.json")
        (rewriteRefsStr (read (dirName ++ "/schema/" ++ file ++ ".schema.json"))) ∈
      schemaTaskActions read compile) ∧
    (FsAction.mkdir (dirName ++ "/dist/schema") ∈ schemaTaskActions read compile) ∧
    (∀ p c, FsAction.write p c ∈ schemaTaskActions read compile →
      ∃ q, p = dirName ++ "/src/schema/" ++ q) := by
  refine ⟨?_, ?_, ?_, ?_⟩
  · simp only [schemaTaskActions, List.mem_append, List.mem_flatMap]
    exact Or.inr ⟨file, hf, by simp⟩
  · simp only [schemaTaskActions, List.mem_append, List.mem_flatMap]
    exact Or.inr ⟨file, hf, by simp⟩
  · simp [schemaTaskActions]
  · intro p c hp
    simp only [schemaTaskActions, List.mem_append, List.mem_cons, List.mem_flatMap,
      List.not_mem_nil, or_false] at hp
    rcases hp with (h | h) | ⟨f, _, h⟩
    · cases h
    · cases h
    · rcases h with h | h
      · exact ⟨f ++ ".schema.d.ts", by injection h with h1 h2⟩
      · exact ⟨f ++ ".schema.json", by injection h with h1 h2⟩

/-- Witness for `schemaTask_writes` at `settings` with trivial read/compile
collaborators. -/
theorem schemaTask_writes_witness :
    FsAction.write (dirName ++ "/src/schema/settings.schema.d.ts") "" ∈
      schemaTaskActions (fun _ => "") (fun _ => "") ∧
    FsAction.mkdir (dirName ++ "/dist/schema") ∈
      schemaTaskActions (fun _ => "") (fun _ => "") := by
  have h := schemaTask_writes (fun _ => "") (fun _ => "") "settings" (by decide)
  refine ⟨?_, h.2.2.1⟩
  exact h.1

/-! ## GraphQL codegen task (`graphQLTypes`, gulpfile.ts lines 108-137)

The task awaits, in order: reading the schema file, `buildSchema` on its
text, the introspection query, `resolveConfig` for the prettier
configuration, and finally writes the generated typings. Each awaited step is
an external collaborator that may reject; a rejection anywhere propagates as
the task's failure. The collaborators are passed in as `Except`-valued
parameters. -/

structure GqlParams where
  readSchemaFile : Except String String
  buildGqlSchema : String → Except String String
  introspect : String → Except String String
  resolveCfg : Except String String
  generate : String → String → String

/-- The `graphQLTypes` task: the chain of awaited steps, ending in the write
of the generated typings file. -/
def graphQLTypesTask (p : GqlParams) : Except String FsAction := do
  let schemaStr ← p.readSchemaFile
  let schema ← p.buildGqlSchema schemaStr
  let result ← p.introspect schema
  let formatOptions ← p.resolveCfg
  pure (.write (dirName ++ "/src/backend/graphqlschema.ts")
    ("export type ID = string\n\n" ++ p.generate result formatOptions))

/-- C8: the GraphQL codegen task fails whenever the schema file is unreadable,
whenever the schema text fails to parse, and whenever the prettier formatting
configuration cannot be resolved (regardless of how the other collaborators
behave). -/
theorem graphQLTypes_failure_propagation (p : GqlParams) :
    (∀ e, p.readSchemaFile = .error e → graphQLTypesTask p = .error e) ∧
    (∀ s e, p.readSchemaFile = .ok s → p.buildGqlSchema s = .error e →
      graphQLTypesTask p = .error e) ∧
    (∀ e, p.resolveCfg = .error e → ∃ e', graphQLTypesTask p = .error e') := by
  refine ⟨?_, ?_, ?_⟩
  · intro e he
    simp [graphQLTypesTask, he, bind, Except.bind]
  · intro s e hs he
    simp [graphQLTypesTask, hs, he, bind, Except.bind]
  · intro e he
    cases hr : p.readSchemaFile with
    | error e' => exact ⟨e', by simp [graphQLTypesTask, hr, bind, Except.bind]⟩
    | ok s =>
      cases hb : p.buildGqlSchema s with
      | error e' => exact ⟨e', by simp [graphQLTypesTask, hr, hb, bind, Except.bind]⟩
      | ok sch =>
        cases hi : p.introspect sch with
        | error e' =>
          exact ⟨e', by simp [graphQLTypesTask, hr, hb, hi, bind, Except.bind,
            Functor.map, Except.map, he]⟩
        | ok res =>
          exact ⟨e, by simp [graphQLTypesTask, hr, hb, hi, bind, Except.bind,
            Functor.map, Except.map, he]⟩

/-- Parameters where every collaborator succeeds except prettier config
resolution. -/
def gqlP0 : GqlParams :=
  ⟨.ok "schema", fun _ => .ok "parsed", fun _ => .ok "introspection",
   .error "no prettier config", fun _ _ => "typings"⟩

/-- Parameters whose schema file read fails. -/
def gqlP1 : GqlParams :=
  ⟨.error "ENOENT", fun _ => .ok "parsed", fun _ => .ok "introspection",
   .ok "cfg", fun _ _ => "typings"⟩

/-- Witness for `graphQLTypes_failure_propagation`: with an unreadable schema
file the task fails with the read error, and with an unresolvable prettier
config the task fails as well. -/
theorem graphQLTypes_failure_propagation_witness :
    graphQLTypesTask gqlP1 = .error "ENOENT" ∧
    ∃ e', graphQLTypesTask gqlP0 = .error e' :=
  ⟨(graphQLTypes_failure_propagation gqlP1).1 "ENOENT" rfl,
   (graphQLTypes_failure_propagation gqlP0).2.2 "no prettier config" rfl⟩

/-! ## Unused-export check (`unusedExports`, gulpfile.ts lines 171-203)

`ts-unused-exports` yields a mapping from (extensionless, tsconfig-relative)
file paths to unused export names, embedded as an association list. The task
sorts the keys (`Object.keys(analysis).sort()` — JavaScript's default sort,
lexicographic by code unit), resolves each to an absolute path with the first
extension among `ts`, `tsx` for which `stat` succeeds (falling back to the
unresolved path), and, when the mapping is non-empty, throws a `PluginError`
whose message joins the header and one line per file with `\n\t`. When the
mapping is empty it returns without output. `stat` success is the Boolean
parameter `ex`. -/

/-- The `for (const ext of ['ts', 'tsx'])` … `try stat` … loop body
(gulpfile.ts lines 183-192). -/
def tryExts (ex : String → Bool) (file : String) : List String → String
  | [] => file
  | ext :: rest =>
    if ex (dirName ++ "/" ++ file ++ "." ++ ext) then dirName ++ "/" ++ file ++ "." ++ ext
    else tryExts ex file rest

/-- Path resolution for one reported file. -/
def resolveReportPath (ex : String → Bool) (file : String) : String :=
  tryExts ex file ["ts", "tsx"]

/-- Lexicographic code-unit comparison, the order of JavaScript's default
`Array.prototype.sort` on strings. -/
def charListLe : List Char → List Char → Bool
  | [], _ => true
  | _ :: _, [] => false
  | a :: as, b :: bs => if a < b then true else if b < a then false else charListLe as bs

def strLeB (x y : String) : Bool := charListLe x.data y.data

def jsLe (x y : String) : Prop := strLeB x y = true

instance : DecidableRel jsLe := fun _ _ => instDecidableEqBool _ _

theorem charListLe_total : ∀ x y : List Char, charListLe x y = true ∨ charListLe y x = true := by
  intro x
  induction x with
  | nil => intro y; left; rfl
  | cons a as ih =>
    intro y
    cases y with
    | nil => right; rfl
    | cons b bs =>
      rcases lt_trichotomy a b with h | h | h
      · left; simp [charListLe, h]
      · subst h
        simp only [charListLe, lt_irrefl, if_false]
        exact ih bs
      · right; simp [charListLe, h]

theorem charListLe_trans :
    ∀ x y z : List Char, charListLe x y = true → charListLe y z = true →
      charListLe x z = true := by
  intro x
  induction x with
  | nil => intro y z _ _; rfl
  | cons a as ih =>
    intro y z hxy hyz
    cases y with
    | nil => simp [charListLe] at hxy
    | cons b bs =>
      cases z with
      | nil => simp [charListLe] at hyz
      | cons c cs =>
        simp only [charListLe] at hxy hyz ⊢
        rcases lt_trichotomy a b with hab | hab | hab
        · rcases lt_trichotomy b c with hbc | hbc | hbc
          · simp [lt_trans hab hbc]
          · subst hbc; simp [hab]
          · rw [if_neg (asymm hbc), if_pos hbc] at hyz
            cases hyz
        · subst hab
          rw [if_neg (lt_irrefl a), if_neg (lt_irrefl a)] at hxy
          rcases lt_trichotomy a c with hac | hac | hac
          · simp [hac]
          · subst hac
            rw [if_neg (lt_irrefl a), if_neg (lt_irrefl a)] at hyz ⊢
            exact ih bs cs hxy hyz
          · rw [if_neg (asymm hac), if_pos hac] at hyz
            cases hyz
        · rw [if_neg (asymm hab), if_pos hab] at hxy
          cases hxy

instance : IsTotal String jsLe := ⟨fun a b => charListLe_total a.data b.data⟩

instance : IsTrans String jsLe := ⟨fun a b c => charListLe_trans a.data b.data c.data⟩

/-- Embeds `Object.keys(analysis).sort()`. -/
def sortedFiles (analysis : List (String × List String)) : List String :=
  List.insertionSort jsLe (analysis.map Prod.fst)

/-- One line of the failure report: resolved path, then the file's unused
export names joined by spaces. -/
def reportLine (ex : String → Bool) (analysis : List (String × List String))
    (f : String) : String :=
  resolveReportPath ex f ++ ": " ++ String.intercalate " " ((analysis.lookup f).getD [])

def reportHeader : String := "Unused exports found (must unexport or remove):"

/-- The `unusedExports` task. -/
def unusedExportsTask (ex : String → Bool)
    (analysis : List (String × List String)) : TaskRun :=
  let files := sortedFiles analysis
  if files.isEmpty then ⟨[], .ok ()⟩
  else
    ⟨[], .error (String.intercalate "\n\t"
      (reportHeader :: files.map (reportLine ex analysis)))⟩

/-- C5: the check fails exactly when the analysis mapping is non-empty; it
never logs; the report's file order is a sorted permutation of the mapping's
keys; and on failure the message is the header followed by exactly one
`\n\t`-separated line per file in that order, each line carrying the file's
unused export names. -/
theorem unusedExportsTask_eq (ex : String → Bool)
    (analysis : List (String × List String)) :
    unusedExportsTask ex analysis =
      if (sortedFiles analysis).isEmpty then ⟨[], .ok ()⟩
      else
        ⟨[], .error (String.intercalate "\n\t"
          (reportHeader :: (sortedFiles analysis).map (reportLine ex analysis)))⟩ := rfl

/-- C5: the check fails exactly when the analysis mapping is non-empty; it
never logs; the report's file order is a sorted permutation of the mapping's
keys; and on failure the message is the header followed by exactly one
`\n\t`-separated line per file in that order, each line carrying the file's
unused export names. -/
theorem unusedExports_report (ex : String → Bool)
    (analysis : List (String × List String)) :
    ((unusedExportsTask ex analysis).result = .ok () ↔ analysis = []) ∧
    (unusedExportsTask ex analysis).logs = [] ∧
    (sortedFiles analysis).Sorted jsLe ∧
    (sortedFiles analysis).Perm (analysis.map Prod.fst) ∧
    (analysis ≠ [] →
      (unusedExportsTask ex analysis).result = .error (String.intercalate "\n\t"
        (reportHeader :: (sortedFiles analysis).map (reportLine ex analysis)))) := by
  have hperm : (sortedFiles analysis).Perm (analysis.map Prod.fst) :=
    List.perm_insertionSort _ _
  have hempty : (sortedFiles analysis).isEmpty = true ↔ analysis = [] := by
    rw [List.isEmpty_iff, ← List.length_eq_zero, hperm.length_eq,
      List.length_map, List.length_eq_zero]
  refine ⟨?_, ?_, List.sorted_insertionSort _ _, hperm, ?_⟩
  · rw [unusedExportsTask_eq]
    cases h : (sortedFiles analysis).isEmpty with
    | true =>
      rw [if_pos rfl]
      simpa using hempty.mp h
    | false =>
      have hne : analysis ≠ [] := fun ha => by
        rw [hempty.mpr ha] at h
        cases h
      rw [if_neg (by simp)]
      simpa using hne
  · rw [unusedExportsTask_eq]
    cases h : (sortedFiles analysis).isEmpty with
    | true => rw [if_pos rfl]
    | false => rw [if_neg (by simp)]
  · intro hne
    have h : (sortedFiles analysis).isEmpty = false := by
      cases h : (sortedFiles analysis).isEmpty with
      | true => exact absurd (hempty.mp h) hne
      | false => rfl
    rw [unusedExportsTask_eq, h]
    rfl

/-- The analysis mapping of the witness. -/
def analysis0 : List (String × List String) :=
  [("src/foo", ["bar"]), ("src/baz", ["qux", "quux"])]

/-- Witness for `unusedExports_report`: on a two-file mapping (with `stat`
failing everywhere, so paths stay unresolved) the task fails with the
two-line report sorted by file name; on the empty mapping it succeeds. -/
theorem unusedExports_report_witness :
    ((unusedExportsTask (fun _ => false) [] ).result = .ok () ↔
      ([] : List (String × List String)) = []) ∧
    (unusedExportsTask (fun _ => false) analysis0).result =
      .error "Unused exports found (must unexport or remove):\n\tsrc/baz: qux quux\n\tsrc/foo: bar" := by
  constructor
  · exact (unusedExports_report (fun _ => false) []).1
  · rw [(unusedExports_report (fun _ => false) analysis0).2.2.2.2 (by decide)]
    congr 1

/-- C10: a reported file path resolves to the absolute `.ts` path when a file
with that extension exists, otherwise to the absolute `.tsx` path when that
exists, and otherwise falls back to the unresolved relative path exactly as
returned by the analysis. -/
theorem resolveReportPath_spec (ex : String → Bool) (file : String) :
    (ex (dirName ++ "/" ++ file ++ "." ++ "ts") = true →
      resolveReportPath ex file = dirName ++ "/" ++ file ++ "." ++ "ts") ∧
    (ex (dirName ++ "/" ++ file ++ "." ++ "ts") = false →
      ex (dirName ++ "/" ++ file ++ "." ++ "tsx") = true →
      resolveReportPath ex file = dirName ++ "/" ++ file ++ "." ++ "tsx") ∧
    (ex (dirName ++ "/" ++ file ++ "." ++ "ts") = false →
      ex (dirName ++ "/" ++ file ++ "." ++ "tsx") = false →
      resolveReportPath ex file = file) := by
  refine ⟨?_, ?_, ?_⟩
  · intro h
    simp [resolveReportPath, tryExts, h]
  · intro h1 h2
    simp [resolveReportPath, tryExts, h1, h2]
  · intro h1 h2
    simp [resolveReportPath, tryExts, h1, h2]

/-- A file-existence oracle under which only `/sourcegraph/src/app.tsx`
exists. -/
def exOnlyTsx (p : String) : Bool := p == "/sourcegraph/src/app.tsx"

/-- Witness for `resolveReportPath_spec`: `src/app` has no `.ts` candidate
but a `.tsx` candidate, so it resolves to the absolute `.tsx` path; under an
oracle where nothing exists the path stays `src/app`. -/
theorem resolveReportPath_spec_witness :
    resolveReportPath exOnlyTsx "src/app" = dirName ++ "/" ++ "src/app" ++ "." ++ "tsx" ∧
    resolveReportPath (fun _ => false) "src/app" = "src/app" :=
  ⟨(resolveReportPath_spec exOnlyTsx "src/app").2.1 (by decide) (by decide),
   (resolveReportPath_spec (fun _ => false) "src/app").2.2 rfl rfl⟩
